import Mathlib

/-!
Verification of the asynchronous message/conversation persistence subsystem
(`src/tos-chat/src/services/messageQueue.ts`) and the session lifecycle
manager (`src/services/session.js`) of the tosdev repository.

The embedding is a shallow one: the mutable class fields of `MessageQueue`
and `SessionService` become explicit state records, `localStorage` becomes
an `Option` field of the state (JSON serialisation of these plain records
round-trips, so it is modelled as the identity on the stored lists),
wall-clock times (`Date.now()`, ISO timestamp strings compared through
`new Date`) become `Nat` milliseconds passed explicitly, the network
writers (`messagePersistenceService.persistMessage`,
`conversationManager.updateConversation`) become oracle functions returning
the success bit of the write, and `generateId` becomes an id parameter.
Processing functions additionally return the trace of item ids handed to
the remote writer, in invocation order, so that ordering properties can be
stated.
-/

/-- Priority tier of a queued message (`'high' | 'medium' | 'low'`). -/
inductive Priority where
  | high
  | medium
  | low
  deriving DecidableEq, Repr

/-- Lifecycle status of a queued message
(`'pending' | 'processing' | 'completed' | 'failed'`). -/
inductive MsgStatus where
  | pending
  | processing
  | completed
  | failed
  deriving DecidableEq, Repr

/-- The `QueuedMessage` record from messageQueue.ts.  The `any`-typed payload
`messageData` is modelled as an opaque string. -/
structure QueuedMessage where
  id : String
  messageData : String
  authToken : String
  timestamp : Nat
  retryCount : Nat
  priority : Priority
  status : MsgStatus
  deriving DecidableEq, Repr

/-- The `QueuedConversationUpdate` record from messageQueue.ts; the `any`-typed
`updates` object is modelled as an opaque string. -/
structure QueuedConversationUpdate where
  id : String
  conversationId : Nat
  updates : String
  authToken : String
  timestamp : Nat
  retryCount : Nat
  deriving DecidableEq, Repr

/-- The JSON object stored under the `tos_message_queue` localStorage key. -/
structure StoredQueue where
  messages : List QueuedMessage
  conversations : List QueuedConversationUpdate
  deriving DecidableEq, Repr

/-- The mutable fields of the `MessageQueue` class, plus the localStorage
cell it reads and writes. -/
structure MessageQueueState where
  messageQueue : List QueuedMessage
  conversationQueue : List QueuedConversationUpdate
  isProcessing : Bool
  isOnline : Bool
  storage : Option StoredQueue
  deriving DecidableEq, Repr

/-- The class field `private maxRetries = 3`. -/
def maxRetries : Nat := 3

/-- The class field `private batchSize = 5`. -/
def batchSize : Nat := 5

/-- Method `saveToStorage`: mirrors both lists into the storage cell. -/
def saveToStorage (s : MessageQueueState) : MessageQueueState :=
  { s with storage := some { messages := s.messageQueue, conversations := s.conversationQueue } }

/-- Method `loadFromStorage`: replaces both lists with the stored ones when the
storage key is present, otherwise leaves the state unchanged. -/
def loadFromStorage (s : MessageQueueState) : MessageQueueState :=
  match s.storage with
  | some st => { s with messageQueue := st.messages, conversationQueue := st.conversations }
  | none => s

/-- The `QueuedMessage` record literal built by `queueMessage`
(`retryCount: 0`, `status: 'pending'`). -/
def mkQueuedMessage (id messageData authToken : String) (timestamp : Nat)
    (priority : Priority) : QueuedMessage :=
  { id := id, messageData := messageData, authToken := authToken, timestamp := timestamp,
    retryCount := 0, priority := priority, status := MsgStatus.pending }

/-- The body of the `for (const message of pendingMessages)` loop in
`processMessages`: set status to `processing`, hand the message to the
remote writer (`okM`), then either mark `completed`, or on failure
increment the retry count and return to `pending` while under the ceiling,
or mark `failed` at the ceiling. -/
def processOne (okM : QueuedMessage → Bool) (m : QueuedMessage) : QueuedMessage :=
  let mp := { m with status := MsgStatus.processing }
  if okM mp then
    { mp with status := MsgStatus.completed }
  else if mp.retryCount < maxRetries then
    { mp with retryCount := mp.retryCount + 1, status := MsgStatus.pending }
  else
    { mp with status := MsgStatus.failed }

/-- The selection-and-mutation of `processMessages`: the code computes
`pendingMessages = messageQueue.filter(pending).slice(0, batchSize)` and
mutates those objects in place, which amounts to rewriting, in list order,
the first `budget` messages whose status is `pending` and leaving every
other element untouched.  The second component is the trace of message ids
handed to the remote writer, in order. -/
def processPendingLoop (okM : QueuedMessage → Bool) :
    List QueuedMessage → Nat → List QueuedMessage × List String
  | [], _ => ([], [])
  | m :: rest, budget =>
    if m.status = MsgStatus.pending then
      match budget with
      | 0 => (m :: rest, [])
      | b + 1 =>
        let r := processPendingLoop okM rest b
        (processOne okM m :: r.1, m.id :: r.2)
    else
      let r := processPendingLoop okM rest budget
      (m :: r.1, r.2)

/-- The cleanup filter at the end of `processMessages`:
`m.status !== 'completed' && !(m.status === 'failed' && m.retryCount >= maxRetries)`. -/
def cleanupMessages (l : List QueuedMessage) : List QueuedMessage :=
  l.filter fun m =>
    decide (¬ m.status = MsgStatus.completed
      ∧ ¬ (m.status = MsgStatus.failed ∧ maxRetries ≤ m.retryCount))

/-- Method `processMessages`: process up to `batchSize` pending messages in list
order, then prune completed and terminally failed messages.  Also returns
the trace of writer invocations. -/
def processMessages (okM : QueuedMessage → Bool) (s : MessageQueueState) :
    MessageQueueState × List String :=
  let r := processPendingLoop okM s.messageQueue batchSize
  ({ s with messageQueue := cleanupMessages r.1 }, r.2)

/-- The `for (const update of updates)` loop of
`processConversationUpdates`, acting on the spliced-out batch with the
remaining queue as accumulator: a successful update is dropped, a failed
one under the retry ceiling is re-appended with its retry count bumped,
and a failed one at the ceiling is dropped.  The second component is the
trace of update ids handed to the writer, in order. -/
def processUpdatesLoop (okU : QueuedConversationUpdate → Bool) :
    List QueuedConversationUpdate → List QueuedConversationUpdate →
    List QueuedConversationUpdate × List String
  | [], q => (q, [])
  | u :: rest, q =>
    if okU u then
      let r := processUpdatesLoop okU rest q
      (r.1, u.id :: r.2)
    else if u.retryCount < maxRetries then
      let r := processUpdatesLoop okU rest (q ++ [{ u with retryCount := u.retryCount + 1 }])
      (r.1, u.id :: r.2)
    else
      let r := processUpdatesLoop okU rest q
      (r.1, u.id :: r.2)

/-- Method `processConversationUpdates`: splice the first `batchSize` updates out
of the conversation queue and run the update loop on them. -/
def processConversationUpdates (okU : QueuedConversationUpdate → Bool)
    (s : MessageQueueState) : MessageQueueState × List String :=
  let r := processUpdatesLoop okU (s.conversationQueue.take batchSize)
    (s.conversationQueue.drop batchSize)
  ({ s with conversationQueue := r.1 }, r.2)

/-- Method `hasQueuedItems`: some message is `pending`, or the conversation queue
is non-empty. -/
def hasQueuedItems (s : MessageQueueState) : Bool :=
  s.messageQueue.any (fun m => decide (m.status = MsgStatus.pending))
    || !s.conversationQueue.isEmpty

/-- The control skeleton of `processQueue`, abstracted over the try-block
body: return unchanged when already processing or offline; otherwise set
the flag, run the body (an arbitrary function, so a body that stops early
because it threw is covered — the `catch` swallows the error and the
`finally` block still runs), then clear the flag and save. -/
def processQueueWith (body : MessageQueueState → MessageQueueState)
    (s : MessageQueueState) : MessageQueueState :=
  if s.isProcessing || !s.isOnline then s
  else saveToStorage { body { s with isProcessing := true } with isProcessing := false }

/-- Method `processQueue`: one drain pass — conversation updates first, then
messages — guarded by the `isProcessing`/`isOnline` check, with the flag
cleared and the state saved in the `finally` block.  Also returns the
concatenated writer-invocation trace of the pass. -/
def processQueue (okU : QueuedConversationUpdate → Bool)
    (okM : QueuedMessage → Bool) (s : MessageQueueState) :
    MessageQueueState × List String :=
  if s.isProcessing || !s.isOnline then (s, [])
  else
    let s1 := { s with isProcessing := true }
    let ru := processConversationUpdates okU s1
    let rm := processMessages okM ru.1
    (saveToStorage { rm.1 with isProcessing := false }, ru.2 ++ rm.2)

/-- Method `queueMessage`: build the pending message, insert it at the head for
`high` priority and at the tail otherwise, save, and trigger an immediate
drain when online and not already processing.  Returns the new state and
the generated id. -/
def queueMessage (okU : QueuedConversationUpdate → Bool)
    (okM : QueuedMessage → Bool) (id messageData authToken : String)
    (timestamp : Nat) (priority : Priority) (s : MessageQueueState) :
    MessageQueueState × String :=
  let qm := mkQueuedMessage id messageData authToken timestamp priority
  let s1 :=
    if priority = Priority.high then { s with messageQueue := qm :: s.messageQueue }
    else { s with messageQueue := s.messageQueue ++ [qm] }
  let s2 := saveToStorage s1
  let s3 := if s2.isOnline && !s2.isProcessing then (processQueue okU okM s2).1 else s2
  (s3, qm.id)

/-- Method `clearFailedMessages`: drop every `failed` message, save, and return
how many were dropped. -/
def clearFailedMessages (s : MessageQueueState) : MessageQueueState × Nat :=
  let failedCount := (s.messageQueue.filter fun m => decide (m.status = MsgStatus.failed)).length
  (saveToStorage { s with
      messageQueue := s.messageQueue.filter fun m => decide (¬ m.status = MsgStatus.failed) },
    failedCount)

/-- The `MessageQueue` constructor of a fresh instance (simulated restart):
empty lists, not processing, with `loadFromStorage` run on the surviving
localStorage contents. -/
def freshInstance (isOnline : Bool) (storage : Option StoredQueue) : MessageQueueState :=
  loadFromStorage
    { messageQueue := [], conversationQueue := [], isProcessing := false,
      isOnline := isOnline, storage := storage }

/-- The write attempts a single message experiences across successive drain
passes: each pass hands the message to the writer once while it is
`pending` (one `processOne` step per pass, outcome given by the list), and
a message that is no longer `pending` is never attempted again. -/
def runAttempts : List Bool → QueuedMessage → QueuedMessage
  | [], m => m
  | ok :: rest, m =>
    if m.status = MsgStatus.pending then runAttempts rest (processOne (fun _ => ok) m)
    else m

/-!
Session lifecycle manager, `src/services/session.js`.  Times are `Nat`
milliseconds (`Date.now()`; the ISO strings stored in the records are
compared through `new Date`, which round-trips millisecond values, so the
string detour is dropped).  `new Date() > new Date(session.expires_at)`
becomes `session.expires_at < now`.  `generateSessionId` becomes an id
parameter.
-/

/-- The credential material spread into a session record by
`createSession` (`...sessionData`). -/
structure SessionData where
  auth_token : String
  workspace_id : Nat
  instance_domain : String
  deriving DecidableEq, Repr

/-- A session record as built by `createSession`. -/
structure Session where
  session_id : String
  data : SessionData
  created_at : Nat
  last_accessed : Nat
  expires_at : Nat
  deriving DecidableEq, Repr

/-- The `SessionService` state: the `sessions` Map (an insertion-ordered
association list with unique keys) and the configured timeout. -/
structure SessionState where
  sessions : List (String × Session)
  sessionTimeout : Nat
  deriving DecidableEq, Repr

/-- The Map method `get`. -/
def mapGet (k : String) (l : List (String × Session)) : Option Session :=
  (l.find? fun p => decide (p.1 = k)).map (fun p => p.2)

/-- The Map method `set`: overwrite the entry with this key in place, or
append a new entry. -/
def mapSet (k : String) (v : Session) : List (String × Session) → List (String × Session)
  | [] => [(k, v)]
  | p :: rest => if p.1 = k then (k, v) :: rest else p :: mapSet k v rest

/-- The Map method `delete` (ignoring the returned boolean). -/
def mapDelete (k : String) (l : List (String × Session)) : List (String × Session) :=
  l.filter fun p => decide (¬ p.1 = k)

/-- Method `createSession`: stamp creation, last-accessed and expiration
(`now + sessionTimeout`) and store the record under the fresh id. -/
def createSession (now : Nat) (sessionId : String) (sessionData : SessionData)
    (st : SessionState) : SessionState × Session :=
  let session : Session :=
    { session_id := sessionId, data := sessionData, created_at := now,
      last_accessed := now, expires_at := now + st.sessionTimeout }
  ({ st with sessions := mapSet sessionId session st.sessions }, session)

/-- Method `getSession`: `null` for an unknown id; for a known id, delete the
record and return `null` when expired (`now` strictly past `expires_at`),
otherwise return the record unchanged. -/
def getSession (now : Nat) (sessionId : String) (st : SessionState) :
    SessionState × Option Session :=
  match mapGet sessionId st.sessions with
  | none => (st, none)
  | some session =>
    if session.expires_at < now then
      ({ st with sessions := mapDelete sessionId st.sessions }, none)
    else
      (st, some session)

/-- Method `updateLastAccessed`: for a known id, stamp `last_accessed` and slide
`expires_at` to `now + sessionTimeout` (no expiry check); silently do
nothing for an unknown id. -/
def updateLastAccessed (now : Nat) (sessionId : String) (st : SessionState) : SessionState :=
  match mapGet sessionId st.sessions with
  | none => st
  | some session =>
    let refreshed : Session :=
      { session with last_accessed := now, expires_at := now + st.sessionTimeout }
    { st with sessions := mapSet sessionId refreshed st.sessions }

/-- Method `deleteSession`: remove the record, reporting whether one was there. -/
def deleteSession (sessionId : String) (st : SessionState) : SessionState × Bool :=
  ({ st with sessions := mapDelete sessionId st.sessions },
    (mapGet sessionId st.sessions).isSome)

/-- Method `cleanupExpiredSessions`: the hourly sweep removing every record whose
expiration has strictly passed. -/
def cleanupExpiredSessions (now : Nat) (st : SessionState) : SessionState :=
  { st with sessions := st.sessions.filter fun p => decide (¬ p.2.expires_at < now) }

/-!  Concrete instances used by counterexamples and witnesses.  -/

/-- A pending message with no retries yet. -/
def msg0 : QueuedMessage :=
  { id := "m0", messageData := "hello", authToken := "tok", timestamp := 10,
    retryCount := 0, priority := Priority.medium, status := MsgStatus.pending }

/-- A pending message whose retry count has already reached the ceiling. -/
def msg3 : QueuedMessage :=
  { id := "m3", messageData := "doomed", authToken := "tok", timestamp := 11,
    retryCount := 3, priority := Priority.medium, status := MsgStatus.pending }

/-- A message stuck in `processing` status (e.g. restored from storage
after a crash mid-pass). -/
def msgStuck : QueuedMessage :=
  { id := "mp", messageData := "stuck", authToken := "tok", timestamp := 12,
    retryCount := 1, priority := Priority.medium, status := MsgStatus.processing }

/-- A queued conversation update. -/
def upd0 : QueuedConversationUpdate :=
  { id := "u0", conversationId := 7, updates := "count", authToken := "tok",
    timestamp := 9, retryCount := 0 }

/-- An idle, online queue state holding `msg3` alone. -/
def mqMsg3 : MessageQueueState :=
  { messageQueue := [msg3], conversationQueue := [], isProcessing := false,
    isOnline := true, storage := none }

/-- An idle, online queue state with one update and two pending messages. -/
def mqMixed : MessageQueueState :=
  { messageQueue := [msg0, msg3], conversationQueue := [upd0], isProcessing := false,
    isOnline := true, storage := none }

/-- An idle, offline, empty queue state. -/
def mqOffline : MessageQueueState :=
  { messageQueue := [], conversationQueue := [], isProcessing := false,
    isOnline := false, storage := none }

/-- A session expiring at millisecond 100. -/
def sess100 : Session :=
  { session_id := "a", data := { auth_token := "t", workspace_id := 1, instance_domain := "d" },
    created_at := 0, last_accessed := 0, expires_at := 100 }

/-- A session store holding `sess100` under key `"a"`, timeout 1000 ms. -/
def stA : SessionState := { sessions := [("a", sess100)], sessionTimeout := 1000 }

/-- Credential material for a created session. -/
def dataA : SessionData := { auth_token := "t", workspace_id := 1, instance_domain := "d" }

/-- The store right after `createSession` at time 0 with timeout 1000 ms. -/
def stCreate : SessionState :=
  (createSession 0 "a" dataA { sessions := [], sessionTimeout := 1000 }).1

/-- An idle, online queue state holding only the stuck `processing`
message. -/
def mqStuck : MessageQueueState :=
  { messageQueue := [msgStuck], conversationQueue := [], isProcessing := false,
    isOnline := true, storage := none }

/-- An idle, offline queue state holding one pending message. -/
def mqOfflinePending : MessageQueueState :=
  { messageQueue := [msg0], conversationQueue := [], isProcessing := false,
    isOnline := false, storage := none }

/-!  Helper lemmas shared by the claim theorems.  -/

/-- A message that is no longer `pending` receives no further attempts. -/
theorem runAttempts_of_not_pending (l : List Bool) (m : QueuedMessage)
    (h : ¬ m.status = MsgStatus.pending) : runAttempts l m = m := by
  cases l with
  | nil => rfl
  | cons ok rest => simp [runAttempts, h]

/-- One attempt never pushes the retry count past the ceiling. -/
theorem processOne_retryCount_le (okM : QueuedMessage → Bool) (m : QueuedMessage)
    (h : m.retryCount ≤ maxRetries) : (processOne okM m).retryCount ≤ maxRetries := by
  simp only [processOne]
  split
  · exact h
  · split
    · simpa using by omega
    · exact h

/-- The retry-count ceiling is invariant under any sequence of attempts. -/
theorem runAttempts_retryCount_le (l : List Bool) (m : QueuedMessage)
    (h : m.retryCount ≤ maxRetries) : (runAttempts l m).retryCount ≤ maxRetries := by
  induction l generalizing m with
  | nil => simpa [runAttempts] using h
  | cons ok rest ih =>
    by_cases hp : m.status = MsgStatus.pending
    · simpa [runAttempts, hp] using ih _ (processOne_retryCount_le _ _ h)
    · simpa [runAttempts, hp] using h

/-- After enough attempts a pending message under the ceiling ends up
`completed` or `failed`. -/
theorem runAttempts_terminal (l : List Bool) (m : QueuedMessage)
    (hp : m.status = MsgStatus.pending) (hrc : m.retryCount ≤ maxRetries)
    (hlen : 4 ≤ l.length + m.retryCount) :
    (runAttempts l m).status = MsgStatus.completed ∨
    (runAttempts l m).status = MsgStatus.failed := by
  induction l generalizing m with
  | nil =>
    simp only [List.length_nil, Nat.zero_add] at hlen
    simp only [maxRetries] at hrc
    omega
  | cons ok rest ih =>
    rw [runAttempts, if_pos hp]
    by_cases hok : ok = true
    · have hdone : processOne (fun _ => ok) m = { m with status := MsgStatus.completed } := by
        simp [processOne, hok]
      rw [hdone, runAttempts_of_not_pending _ _ (by simp)]
      left
      rfl
    · have hok' : ok = false := by
        cases ok
        · rfl
        · exact absurd rfl hok
      by_cases hlt : m.retryCount < maxRetries
      · have hstep : processOne (fun _ => ok) m =
            { m with retryCount := m.retryCount + 1, status := MsgStatus.pending } := by
          simp [processOne, hok', hlt]
        rw [hstep]
        refine ih _ rfl (by simpa using hlt) ?_
        simp only [List.length_cons] at hlen
        simp only []
        omega
      · have hstep : processOne (fun _ => ok) m = { m with status := MsgStatus.failed } := by
          simp [processOne, hok', hlt]
        rw [hstep, runAttempts_of_not_pending _ _ (by simp)]
        right
        rfl

/-- The writer-invocation trace of the message loop is exactly the ids of
the first `b` pending messages, in list order. -/
theorem processPendingLoop_trace (okM : QueuedMessage → Bool)
    (l : List QueuedMessage) (b : Nat) :
    (processPendingLoop okM l b).2 =
      ((l.filter fun m => decide (m.status = MsgStatus.pending)).take b).map
        (fun m => m.id) := by
  induction l generalizing b with
  | nil => simp [processPendingLoop]
  | cons m rest ih =>
    by_cases hp : m.status = MsgStatus.pending
    · cases b with
      | zero => simp [processPendingLoop, hp]
      | succ b' => simp [processPendingLoop, hp, ih]
    · simp [processPendingLoop, hp, ih]

/-- A non-`pending` message is left in place, untouched, by the message
loop. -/
theorem processPendingLoop_mem_of_not_pending (okM : QueuedMessage → Bool)
    (l : List QueuedMessage) (b : Nat) (m : QueuedMessage)
    (hm : m ∈ l) (hp : ¬ m.status = MsgStatus.pending) :
    m ∈ (processPendingLoop okM l b).1 := by
  induction l generalizing b with
  | nil => cases hm
  | cons x rest ih =>
    by_cases hx : x.status = MsgStatus.pending
    · cases b with
      | zero => simpa [processPendingLoop, hx] using hm
      | succ b' =>
        rcases List.mem_cons.mp hm with h | h
        · exact absurd (h ▸ hx) hp
        · simp only [processPendingLoop, if_pos hx]
          exact List.mem_cons.mpr (Or.inr (ih b' h))
    · rcases List.mem_cons.mp hm with h | h
      · simp only [processPendingLoop, if_neg hx]
        exact List.mem_cons.mpr (Or.inl h)
      · simp only [processPendingLoop, if_neg hx]
        exact List.mem_cons.mpr (Or.inr (ih b h))

/-- Membership in the post-pass cleanup filter. -/
theorem mem_cleanupMessages (l : List QueuedMessage) (m : QueuedMessage) :
    m ∈ cleanupMessages l ↔
      m ∈ l ∧ ¬ m.status = MsgStatus.completed
        ∧ ¬ (m.status = MsgStatus.failed ∧ maxRetries ≤ m.retryCount) := by
  simp only [cleanupMessages, List.mem_filter, decide_eq_true_eq]

/-- The writer-invocation trace of the update loop is exactly the ids of
the batch, in order. -/
theorem processUpdatesLoop_trace (okU : QueuedConversationUpdate → Bool)
    (batch q : List QueuedConversationUpdate) :
    (processUpdatesLoop okU batch q).2 = batch.map (fun u => u.id) := by
  induction batch generalizing q with
  | nil => simp [processUpdatesLoop]
  | cons u rest ih =>
    by_cases h : okU u = true
    · simp [processUpdatesLoop, h, ih]
    · by_cases h2 : u.retryCount < maxRetries
      · simp [processUpdatesLoop, h, h2, ih]
      · simp [processUpdatesLoop, h, h2, ih]

/-- Looking up the key just written into the Map finds the written value. -/
theorem mapGet_mapSet_self (k : String) (v : Session) (l : List (String × Session)) :
    mapGet k (mapSet k v l) = some v := by
  induction l with
  | nil => simp [mapGet, mapSet]
  | cons p rest ih =>
    by_cases h : p.1 = k
    · simp [mapSet, h, mapGet]
    · simp only [mapSet, if_neg h]
      simpa [mapGet, List.find?_cons, h] using ih

/-- C1: for every QueuedMessage, after at most 4 total write attempts
(the initial attempt plus 3 retries) its status is either `completed` or
terminally `failed`, its retry count never exceeds 3, and each failed
attempt either increments the retry count and returns the message to
`pending` (when the count is below 3) or sets status to `failed` (when the
count has reached 3). -/
theorem claim1_retry_ceiling :
    (∀ (outcomes : List Bool) (m : QueuedMessage), m.retryCount ≤ maxRetries →
        (runAttempts outcomes m).retryCount ≤ maxRetries) ∧
    (∀ (outcomes : List Bool) (m : QueuedMessage), m.status = MsgStatus.pending →
        m.retryCount = 0 → 4 ≤ outcomes.length →
        (runAttempts outcomes m).status = MsgStatus.completed ∨
        (runAttempts outcomes m).status = MsgStatus.failed) ∧
    (∀ (okM : QueuedMessage → Bool) (m : QueuedMessage),
        okM { m with status := MsgStatus.processing } = false →
        ((m.retryCount < maxRetries →
            processOne okM m =
              { m with retryCount := m.retryCount + 1, status := MsgStatus.pending }) ∧
         (maxRetries ≤ m.retryCount →
            processOne okM m = { m with status := MsgStatus.failed }))) := by
  refine ⟨fun outcomes m h => runAttempts_retryCount_le outcomes m h, ?_, ?_⟩
  · intro outcomes m hp hrc hlen
    exact runAttempts_terminal outcomes m hp (by omega) (by omega)
  · intro okM m hfail
    constructor
    · intro hlt
      simp [processOne, hfail, hlt]
    · intro hge
      have : ¬ m.retryCount < maxRetries := by omega
      simp [processOne, hfail, this]

/-- Witness for C1 at a concrete message and four failing attempts. -/
theorem claim1_retry_ceiling_witness :
    (runAttempts [false, false, false, false] msg0).retryCount ≤ maxRetries ∧
    ((runAttempts [false, false, false, false] msg0).status = MsgStatus.completed ∨
     (runAttempts [false, false, false, false] msg0).status = MsgStatus.failed) ∧
    processOne (fun _ => false) msg0 =
      { msg0 with retryCount := 1, status := MsgStatus.pending } := by
  refine ⟨claim1_retry_ceiling.1 _ msg0 (by decide),
    claim1_retry_ceiling.2.1 _ msg0 (by decide) (by decide) (by decide), ?_⟩
  have h := (claim1_retry_ceiling.2.2 (fun _ => false) msg0 (by decide)).1 (by decide)
  simpa using h

/-- C2: a drain invocation while a pass is in progress or while offline
returns immediately as a no-op, and otherwise the `isProcessing` flag is
cleared when the pass ends, for every possible pass body — including one
that stops early because it threw, since the flag is cleared in the
`finally` block; `processQueue` is an instance of this skeleton. -/
theorem claim2_no_overlapping_drains :
    (∀ (body : MessageQueueState → MessageQueueState) (s : MessageQueueState),
        (s.isProcessing = true ∨ s.isOnline = false → processQueueWith body s = s) ∧
        (s.isProcessing = false → s.isOnline = true →
          (processQueueWith body s).isProcessing = false)) ∧
    (∀ (okU : QueuedConversationUpdate → Bool) (okM : QueuedMessage → Bool)
        (s : MessageQueueState),
        (processQueue okU okM s).1 =
          processQueueWith
            (fun t => (processMessages okM (processConversationUpdates okU t).1).1) s) := by
  constructor
  · intro body s
    constructor
    · intro h
      rcases h with h | h <;> simp [processQueueWith, h]
    · intro hp ho
      simp [processQueueWith, hp, ho, saveToStorage]
  · intro okU okM s
    by_cases h : (s.isProcessing || !s.isOnline) = true
    · simp [processQueue, processQueueWith, h]
    · simp [processQueue, processQueueWith, h, processMessages, processConversationUpdates]

/-- Witness for C2: a no-op on an offline state, a cleared flag after a
real pass, and the skeleton instance, all at concrete states. -/
theorem claim2_no_overlapping_drains_witness :
    processQueueWith (fun t => t) mqOffline = mqOffline ∧
    (processQueueWith (fun t => t) mqMixed).isProcessing = false ∧
    (processQueue (fun _ => true) (fun _ => true) mqMixed).1 =
      processQueueWith
        (fun t => (processMessages (fun _ => true)
          (processConversationUpdates (fun _ => true) t).1).1) mqMixed := by
  exact ⟨(claim2_no_overlapping_drains.1 (fun t => t) mqOffline).1 (Or.inr rfl),
    (claim2_no_overlapping_drains.1 (fun t => t) mqMixed).2 rfl rfl,
    claim2_no_overlapping_drains.2 (fun _ => true) (fun _ => true) mqMixed⟩

/-- Counterexample to C3 as stated: a message at the retry ceiling whose
write fails is set to `failed`, but it does NOT remain in the message
queue after the pass that failed it — the cleanup at the end of the very
same `processMessages` pass removes it, so nothing is retained until
`clearFailedMessages`. -/
theorem claim3_counterexample :
    (processOne (fun _ => false) msg3).status = MsgStatus.failed ∧
    (processMessages (fun _ => false) mqMsg3).1.messageQueue = [] := by
  decide

/-- C3 as amended: when the retry ceiling is exceeded the message's status
becomes terminally `failed`; batch selection only ever hands `pending`
messages to the writer; but a terminally failed message is pruned from the
queue by the cleanup at the end of the same pass rather than retained, and
`clearFailedMessages` removes whatever `failed` messages remain. -/
theorem claim3_failed_terminal_pruned :
    (∀ (okM : QueuedMessage → Bool) (m : QueuedMessage),
        okM { m with status := MsgStatus.processing } = false →
        maxRetries ≤ m.retryCount →
        processOne okM m = { m with status := MsgStatus.failed }) ∧
    (∀ (l : List QueuedMessage) (m : QueuedMessage), m.status = MsgStatus.failed →
        maxRetries ≤ m.retryCount → ¬ m ∈ cleanupMessages l) ∧
    (∀ (okM : QueuedMessage → Bool) (s : MessageQueueState),
        (processMessages okM s).2 =
          ((s.messageQueue.filter fun m =>
            decide (m.status = MsgStatus.pending)).take batchSize).map (fun m => m.id)) ∧
    (∀ (s : MessageQueueState) (m : QueuedMessage),
        m ∈ (clearFailedMessages s).1.messageQueue → ¬ m.status = MsgStatus.failed) := by
  refine ⟨?_, ?_, ?_, ?_⟩
  · intro okM m hfail hge
    have : ¬ m.retryCount < maxRetries := by omega
    simp [processOne, hfail, this]
  · intro l m hst hge hmem
    have h := (mem_cleanupMessages l m).mp hmem
    exact h.2.2 ⟨hst, hge⟩
  · intro okM s
    simpa [processMessages] using processPendingLoop_trace okM s.messageQueue batchSize
  · intro s m hmem
    simp only [clearFailedMessages, saveToStorage, List.mem_filter,
      decide_eq_true_eq] at hmem
    exact hmem.2

/-- Witness for C3's amended statement at concrete messages and states. -/
theorem claim3_failed_terminal_pruned_witness :
    processOne (fun _ => false) msg3 = { msg3 with status := MsgStatus.failed } ∧
    ¬ ({ msg3 with status := MsgStatus.failed } ∈
        cleanupMessages [{ msg3 with status := MsgStatus.failed }]) ∧
    (processMessages (fun _ => false) mqMixed).2 =
      ((mqMixed.messageQueue.filter fun m =>
        decide (m.status = MsgStatus.pending)).take batchSize).map (fun m => m.id) ∧
    ¬ msg0.status = MsgStatus.failed := by
  refine ⟨claim3_failed_terminal_pruned.1 (fun _ => false) msg3 (by decide) (by decide),
    claim3_failed_terminal_pruned.2.1 _ _ (by decide) (by decide),
    claim3_failed_terminal_pruned.2.2.1 (fun _ => false) mqMixed,
    claim3_failed_terminal_pruned.2.2.2 (saveToStorage mqMixed) msg0 (by decide)⟩

/-- Updating last-accessed for a known id rewrites exactly that record,
stamping `last_accessed` and sliding `expires_at`, with no expiry check. -/
theorem mapGet_updateLastAccessed (now : Nat) (sid : String) (st : SessionState)
    (sess : Session) (h : mapGet sid st.sessions = some sess) :
    mapGet sid (updateLastAccessed now sid st).sessions =
      some { sess with last_accessed := now, expires_at := now + st.sessionTimeout } := by
  unfold updateLastAccessed
  rw [h]
  exact mapGet_mapSet_self _ _ _

/-- A drain pass leaves any message whose status is `processing` in the
queue, unchanged: it is not selected (selection filters `pending`) and it
is not pruned (pruning removes `completed` and terminally `failed`). -/
theorem processQueue_preserves_processing (okU : QueuedConversationUpdate → Bool)
    (okM : QueuedMessage → Bool) (s : MessageQueueState) (m : QueuedMessage)
    (hst : m.status = MsgStatus.processing) (hm : m ∈ s.messageQueue) :
    m ∈ (processQueue okU okM s).1.messageQueue := by
  unfold processQueue
  by_cases hg : (s.isProcessing || !s.isOnline) = true
  · simpa [hg] using hm
  · simp only [hg, if_false, Bool.false_eq_true, saveToStorage, processMessages,
      processConversationUpdates]
    refine (mem_cleanupMessages _ _).mpr ⟨?_, by simp [hst], by simp [hst]⟩
    exact processPendingLoop_mem_of_not_pending okM _ batchSize m (by simpa using hm)
      (by simp [hst])

/-- Counterexample to C4 as stated: at the instant `t` equal to the
expiration timestamp, `t` is not strictly before the expiration, yet
`getSession` still returns the record — the code expires only strictly
past the timestamp (`new Date() > new Date(expires_at)`). -/
theorem claim4_counterexample :
    (getSession 100 "a" stA).2 = some sess100 ∧ sess100.expires_at ≤ 100 := by
  decide

/-- C4 as amended: `getSession(id)` at time `t` returns the record iff the
session is stored and `t` is at or before its expiration timestamp
(boundary inclusive); when the stored session is strictly past its
expiration the record is deleted (lazy eviction) and null is returned;
for an unknown id it returns null with no side effect. -/
theorem claim4_lazy_expiry :
    (∀ (now : Nat) (sid : String) (st : SessionState),
        ((getSession now sid st).2).isSome = true ↔
          ∃ sess, mapGet sid st.sessions = some sess ∧ now ≤ sess.expires_at) ∧
    (∀ (now : Nat) (sid : String) (st : SessionState) (sess : Session),
        mapGet sid st.sessions = some sess → sess.expires_at < now →
        getSession now sid st = ({ st with sessions := mapDelete sid st.sessions }, none)) ∧
    (∀ (now : Nat) (sid : String) (st : SessionState),
        mapGet sid st.sessions = none → getSession now sid st = (st, none)) := by
  refine ⟨?_, ?_, ?_⟩
  · intro now sid st
    unfold getSession
    cases h : mapGet sid st.sessions with
    | none => simp [h]
    | some sess =>
      by_cases hexp : sess.expires_at < now
      · simp only [h, if_pos hexp]
        simp
        omega
      · simp only [h, if_neg hexp]
        simp
        omega
  · intro now sid st sess h hexp
    unfold getSession
    rw [h]
    simp [hexp]
  · intro now sid st h
    unfold getSession
    rw [h]

/-- Witness for C4's amended statement at a concrete store. -/
theorem claim4_lazy_expiry_witness :
    (((getSession 50 "a" stA).2).isSome = true ↔
      ∃ sess, mapGet "a" stA.sessions = some sess ∧ 50 ≤ sess.expires_at) ∧
    getSession 200 "a" stA = ({ stA with sessions := mapDelete "a" stA.sessions }, none) ∧
    getSession 200 "b" stA = (stA, none) :=
  ⟨claim4_lazy_expiry.1 50 "a" stA,
    claim4_lazy_expiry.2.1 200 "a" stA sess100 (by decide) (by decide),
    claim4_lazy_expiry.2.2 200 "b" stA (by decide)⟩

/-- Counterexample to C5 as stated: a successful `getSession` call does
not slide expiration — after creating a session at time 0 with a 1000 ms
timeout, `getSession` at time 500 succeeds, leaves the store unchanged,
and the expiration stays 1000, strictly less than the claimed
500 + 1000. -/
theorem claim5_counterexample :
    ((getSession 500 "a" stCreate).2).isSome = true ∧
    (getSession 500 "a" stCreate).1 = stCreate ∧
    ((getSession 500 "a" stCreate).2).map (fun sess => sess.expires_at) = some 1000 ∧
    (1000 : Nat) < 500 + 1000 := by
  decide

/-- C5 as amended: `updateLastAccessed` for an existing session stamps
last-accessed to the call time and slides expiration to exactly the call
time plus the configured timeout; `getSession` never modifies any stored
record (it either leaves the store unchanged or only deletes the expired
record); and expiration never moves backward as long as the old expiration
is at most the call time plus the timeout, which holds whenever the clock
is monotone. -/
theorem claim5_sliding_expiration :
    (∀ (now : Nat) (sid : String) (st : SessionState) (sess : Session),
        mapGet sid st.sessions = some sess →
        mapGet sid (updateLastAccessed now sid st).sessions =
          some { sess with last_accessed := now, expires_at := now + st.sessionTimeout }) ∧
    (∀ (now : Nat) (sid : String) (st : SessionState),
        (getSession now sid st).1.sessions = st.sessions ∨
        (getSession now sid st).1.sessions = mapDelete sid st.sessions) ∧
    (∀ (now : Nat) (sid : String) (st : SessionState) (sess sess' : Session),
        mapGet sid st.sessions = some sess →
        sess.expires_at ≤ now + st.sessionTimeout →
        mapGet sid (updateLastAccessed now sid st).sessions = some sess' →
        sess.expires_at ≤ sess'.expires_at) := by
  refine ⟨fun now sid st sess h => mapGet_updateLastAccessed now sid st sess h, ?_, ?_⟩
  · intro now sid st
    unfold getSession
    cases h : mapGet sid st.sessions with
    | none => left; rfl
    | some sess =>
      by_cases hexp : sess.expires_at < now
      · right; simp [hexp]
      · left; simp [hexp]
  · intro now sid st sess sess' h hle h'
    rw [mapGet_updateLastAccessed now sid st sess h] at h'
    have := Option.some.inj h'
    rw [← this]
    simpa using hle

/-- Witness for C5's amended statement at a concrete store. -/
theorem claim5_sliding_expiration_witness :
    mapGet "a" (updateLastAccessed 700 "a" stA).sessions =
      some { sess100 with last_accessed := 700, expires_at := 700 + stA.sessionTimeout } ∧
    ((getSession 300 "a" stA).1.sessions = stA.sessions ∨
      (getSession 300 "a" stA).1.sessions = mapDelete "a" stA.sessions) ∧
    sess100.expires_at ≤
      ({ sess100 with last_accessed := 700, expires_at := 700 + stA.sessionTimeout } : Session).expires_at :=
  ⟨claim5_sliding_expiration.1 700 "a" stA sess100 (by decide),
    claim5_sliding_expiration.2.1 300 "a" stA,
    claim5_sliding_expiration.2.2 700 "a" stA sess100 _ (by decide) (by decide)
      (claim5_sliding_expiration.1 700 "a" stA sess100 (by decide))⟩

/-- C6: within a single drain pass, the writer is handed the first
`batchSize` conversation updates (head of the update list, in order)
strictly before any message, followed by the first `batchSize`
`pending`-status messages in list order. -/
theorem claim6_pass_order (okU : QueuedConversationUpdate → Bool)
    (okM : QueuedMessage → Bool) (s : MessageQueueState)
    (hp : s.isProcessing = false) (ho : s.isOnline = true) :
    (processQueue okU okM s).2 =
      (s.conversationQueue.take batchSize).map (fun u => u.id) ++
      ((s.messageQueue.filter fun m =>
        decide (m.status = MsgStatus.pending)).take batchSize).map (fun m => m.id) := by
  simp [processQueue, hp, ho, processConversationUpdates, processMessages,
    processUpdatesLoop_trace, processPendingLoop_trace]

/-- Witness for C6 at a concrete one-update, two-message state. -/
theorem claim6_pass_order_witness :
    (processQueue (fun _ => true) (fun _ => true) mqMixed).2 =
      (mqMixed.conversationQueue.take batchSize).map (fun u => u.id) ++
      ((mqMixed.messageQueue.filter fun m =>
        decide (m.status = MsgStatus.pending)).take batchSize).map (fun m => m.id) :=
  claim6_pass_order (fun _ => true) (fun _ => true) mqMixed rfl rfl

/-- C7: `queueMessage` inserts a `high`-priority message at the head of
the message list and every other priority at the tail; consequently a
drain pass over the resulting queue hands the high-priority message to the
writer before every pending message that was already queued. -/
theorem claim7_high_priority_head (okU : QueuedConversationUpdate → Bool)
    (okM okM2 : QueuedMessage → Bool) (id messageData authToken : String)
    (timestamp : Nat) (s : MessageQueueState) (hoff : s.isOnline = false) :
    (queueMessage okU okM id messageData authToken timestamp Priority.high s).1.messageQueue =
      mkQueuedMessage id messageData authToken timestamp Priority.high :: s.messageQueue ∧
    (processMessages okM2
        (queueMessage okU okM id messageData authToken timestamp Priority.high s).1).2 =
      id :: ((s.messageQueue.filter fun m =>
        decide (m.status = MsgStatus.pending)).take (batchSize - 1)).map (fun m => m.id) ∧
    (∀ priority, ¬ priority = Priority.high →
      (queueMessage okU okM id messageData authToken timestamp priority s).1.messageQueue =
        s.messageQueue ++ [mkQueuedMessage id messageData authToken timestamp priority]) := by
  refine ⟨?_, ?_, ?_⟩
  · simp [queueMessage, saveToStorage, hoff]
  · simp only [processMessages, processPendingLoop_trace]
    simp [queueMessage, saveToStorage, hoff, mkQueuedMessage, batchSize]
  · intro priority hp
    simp [queueMessage, saveToStorage, hoff, hp]

/-- Witness for C7 at a concrete offline queue holding one older pending
message. -/
theorem claim7_high_priority_head_witness :
    (queueMessage (fun _ => true) (fun _ => true) "h1" "pl" "tk" 99 Priority.high
        mqOfflinePending).1.messageQueue =
      mkQueuedMessage "h1" "pl" "tk" 99 Priority.high :: mqOfflinePending.messageQueue ∧
    (processMessages (fun _ => true)
        (queueMessage (fun _ => true) (fun _ => true) "h1" "pl" "tk" 99 Priority.high
          mqOfflinePending).1).2 =
      "h1" :: ((mqOfflinePending.messageQueue.filter fun m =>
        decide (m.status = MsgStatus.pending)).take (batchSize - 1)).map (fun m => m.id) ∧
    (queueMessage (fun _ => true) (fun _ => true) "h1" "pl" "tk" 99 Priority.low
        mqOfflinePending).1.messageQueue =
      mqOfflinePending.messageQueue ++ [mkQueuedMessage "h1" "pl" "tk" 99 Priority.low] := by
  have h := claim7_high_priority_head (fun _ => true) (fun _ => true) (fun _ => true)
    "h1" "pl" "tk" 99 mqOfflinePending rfl
  exact ⟨h.1, h.2.1, h.2.2 Priority.low (by decide)⟩

/-- C8: a message enqueued while offline is saved to local storage by
`queueMessage`, and reloading that storage on a fresh instance (simulated
restart) yields a queue containing the message with identical id, payload,
auth token, timestamp, priority, `pending` status and untouched zero retry
count — membership of the identical record. -/
theorem claim8_round_trip (okU : QueuedConversationUpdate → Bool)
    (okM : QueuedMessage → Bool) (id messageData authToken : String)
    (timestamp : Nat) (priority : Priority) (restartOnline : Bool)
    (s : MessageQueueState) (hoff : s.isOnline = false) :
    mkQueuedMessage id messageData authToken timestamp priority ∈
      (freshInstance restartOnline
        ((queueMessage okU okM id messageData authToken timestamp priority
          s).1.storage)).messageQueue := by
  by_cases hp : priority = Priority.high
  · subst hp
    simp [queueMessage, saveToStorage, freshInstance, loadFromStorage, hoff]
  · simp [queueMessage, saveToStorage, freshInstance, loadFromStorage, hoff, hp]

/-- Witness for C8: a low-priority message round-trips through storage on
a concrete offline state. -/
theorem claim8_round_trip_witness :
    mkQueuedMessage "r1" "payload" "tk" 5 Priority.low ∈
      (freshInstance true
        ((queueMessage (fun _ => true) (fun _ => true) "r1" "payload" "tk" 5 Priority.low
          mqOfflinePending).1.storage)).messageQueue :=
  claim8_round_trip (fun _ => true) (fun _ => true) "r1" "payload" "tk" 5 Priority.low true
    mqOfflinePending rfl

/-- C9: a message whose status is `processing` at the start of a drain
pass is never selected (selection filters `pending` only), never changed,
and never pruned — it survives one pass, and any number of passes,
unchanged in the queue — and it does not make `hasQueuedItems` true. -/
theorem claim9_processing_stuck :
    (∀ (okU : QueuedConversationUpdate → Bool) (okM : QueuedMessage → Bool)
        (s : MessageQueueState) (m : QueuedMessage), m.status = MsgStatus.processing →
        m ∈ s.messageQueue → m ∈ (processQueue okU okM s).1.messageQueue) ∧
    (∀ (okU : QueuedConversationUpdate → Bool) (okM : QueuedMessage → Bool)
        (s : MessageQueueState) (m : QueuedMessage) (n : Nat),
        m.status = MsgStatus.processing → m ∈ s.messageQueue →
        m ∈ ((fun t => (processQueue okU okM t).1)^[n] s).messageQueue) ∧
    (∀ s : MessageQueueState, (∀ m ∈ s.messageQueue, m.status = MsgStatus.processing) →
        s.conversationQueue = [] → hasQueuedItems s = false) := by
  refine ⟨fun okU okM s m hst hm => processQueue_preserves_processing okU okM s m hst hm,
    ?_, ?_⟩
  · intro okU okM s m n hst hm
    induction n generalizing s with
    | zero => simpa using hm
    | succ k ih =>
      rw [Function.iterate_succ_apply]
      exact ih _ (processQueue_preserves_processing okU okM s m hst hm)
  · intro s hall hc
    rw [hasQueuedItems]
    simp only [hc, List.isEmpty_nil, Bool.not_true, Bool.or_false]
    rw [List.any_eq_false]
    intro m hm
    simp [hall m hm]

/-- Witness for C9 at a concrete queue holding one stuck `processing`
message. -/
theorem claim9_processing_stuck_witness :
    msgStuck ∈ (processQueue (fun _ => true) (fun _ => true) mqStuck).1.messageQueue ∧
    msgStuck ∈
      ((fun t => (processQueue (fun _ => true) (fun _ => true) t).1)^[3] mqStuck).messageQueue ∧
    hasQueuedItems mqStuck = false :=
  ⟨claim9_processing_stuck.1 (fun _ => true) (fun _ => true) mqStuck msgStuck (by decide)
      (by simp [mqStuck]),
    claim9_processing_stuck.2.1 (fun _ => true) (fun _ => true) mqStuck msgStuck 3 (by decide)
      (by simp [mqStuck]),
    claim9_processing_stuck.2.2 mqStuck (by decide) rfl⟩

/-- C10: `updateLastAccessed` performs no expiration check — for a stored
session whose expiration has already passed it still slides the expiration
to now + timeout (so the session becomes valid again, as `getSession` at
the same instant then succeeds), and for an unknown id it is a silent
no-op. -/
theorem claim10_revive_expired :
    (∀ (now : Nat) (sid : String) (st : SessionState) (sess : Session),
        mapGet sid st.sessions = some sess → sess.expires_at < now →
        mapGet sid (updateLastAccessed now sid st).sessions =
          some { sess with last_accessed := now, expires_at := now + st.sessionTimeout } ∧
        ((getSession now sid (updateLastAccessed now sid st)).2).isSome = true) ∧
    (∀ (now : Nat) (sid : String) (st : SessionState),
        mapGet sid st.sessions = none → updateLastAccessed now sid st = st) := by
  constructor
  · intro now sid st sess h _hexp
    have hg := mapGet_updateLastAccessed now sid st sess h
    refine ⟨hg, ?_⟩
    unfold getSession
    rw [hg]
    have hnot := Nat.not_lt.mpr (Nat.le_add_right now st.sessionTimeout)
    simp [hnot]
  · intro now sid st h
    unfold updateLastAccessed
    rw [h]

/-- Witness for C10: reviving the session expired at 100 by touching it at
time 200, and the no-op on an unknown id. -/
theorem claim10_revive_expired_witness :
    (mapGet "a" (updateLastAccessed 200 "a" stA).sessions =
        some { sess100 with last_accessed := 200, expires_at := 200 + stA.sessionTimeout } ∧
      ((getSession 200 "a" (updateLastAccessed 200 "a" stA)).2).isSome = true) ∧
    updateLastAccessed 200 "b" stA = stA :=
  ⟨claim10_revive_expired.1 200 "a" stA sess100 (by decide) (by decide),
    claim10_revive_expired.2 200 "b" stA (by decide)⟩
